import Mathlib

/-!
Verification development for the expense-tracker core
(`app/parsers.py` and `app/categoriser.py`).

The Python source is shallowly embedded: pandas frames become lists of
rows whose cells are `Option String` (`none` models a missing value,
pandas `NaN`/`NaT`), numeric amounts become `Rat`, dates become a
concrete `Date` structure, and Python exceptions become `Except Err`.
Every definition mirrors one function of the source; external library
behaviour (CPython `str` methods, `float` parsing, `strptime` formats,
`json` round-tripping of string dictionaries, `pandas` cell semantics)
is modelled by small executable definitions noted in the doc comments.
-/

/-! ## Python string primitives -/

/-- ASCII upper-to-lower pairs; the embedding of `str.lower` acts on the
ASCII letters (the only characters the categoriser keywords and the
column signatures use). -/
def lowerPairs : List (Char × Char) :=
  [(65, 97), (66, 98), (67, 99), (68, 100), (69, 101), (70, 102), (71, 103),
   (72, 104), (73, 105), (74, 106), (75, 107), (76, 108), (77, 109), (78, 110),
   (79, 111), (80, 112), (81, 113), (82, 114), (83, 115), (84, 116), (85, 117),
   (86, 118), (87, 119), (88, 120), (89, 121), (90, 122)].map
    (fun p => (Char.ofNat p.1, Char.ofNat p.2))

/-- Lower-case one character (model of Python `str.lower` per character). -/
def lowerChar (c : Char) : Char :=
  match lowerPairs.find? (fun p => p.1 == c) with
  | some p => p.2
  | none => c

/-- Upper-case one character (model of Python `str.upper` per character). -/
def upperChar (c : Char) : Char :=
  match lowerPairs.find? (fun p => p.2 == c) with
  | some p => p.1
  | none => c

/-- Model of Python `str.lower`. -/
def pyLower (s : String) : String := ⟨s.data.map lowerChar⟩

/-- Model of Python `str.upper`. -/
def pyUpper (s : String) : String := ⟨s.data.map upperChar⟩

/-- Whitespace characters recognised by Python `str.strip`. -/
def isWs (c : Char) : Bool := c == ' ' || c == '\t' || c == '\n' || c == '\r'

/-- Model of Python `str.strip()`. -/
def pyStrip (s : String) : String :=
  ⟨((s.data.dropWhile isWs).reverse.dropWhile isWs).reverse⟩

/-- Split a character list at every occurrence of `sep`
(model of Python `str.split(sep)` for a one-character separator,
which keeps empty fields). -/
def splitOnChar (sep : Char) : List Char → List (List Char)
  | [] => [[]]
  | c :: rest =>
    let r := splitOnChar sep rest
    if c = sep then [] :: r
    else
      match r with
      | [] => [[c]]
      | h :: t => (c :: h) :: t

/-- String-level wrapper for `splitOnChar`. -/
def strSplit (sep : Char) (s : String) : List String :=
  (splitOnChar sep s.data).map (fun l => ⟨l⟩)

/-- `leadsWith pre l` holds when `pre` is an initial segment of `l`. -/
def leadsWith : List Char → List Char → Bool
  | [], _ => true
  | _ :: _, [] => false
  | a :: as, b :: bs => a == b && leadsWith as bs

/-- `hasSubstr needle hay`: `needle` occurs contiguously in `hay`
(model of the Python `in` operator on strings). -/
def hasSubstr (needle : List Char) : List Char → Bool
  | [] => needle.isEmpty
  | c :: rest => leadsWith needle (c :: rest) || hasSubstr needle rest

/-- Substring test on `String` (Python `needle in hay`). -/
def strHas (hay needle : String) : Bool := hasSubstr needle.data hay.data

/-- Suffix test on `String` (Python `str.endswith`). -/
def endsWithStr (s suffix : String) : Bool :=
  leadsWith suffix.data.reverse s.data.reverse

/-- Remove every occurrence of a character
(model of pandas `.str.replace(ch, "")`, which replaces all occurrences). -/
def removeChar (ch : Char) (s : String) : String :=
  ⟨s.data.filter (fun c => c ≠ ch)⟩

/-! ## Numeric parsing -/

/-- Numeric value of a list of decimal digit characters. -/
def digitsToNat (ds : List Char) : Nat :=
  ds.foldl (fun a c => a * 10 + (c.toNat - 48)) 0

/-- Decimal digit test. -/
def isDigitCh (c : Char) : Bool := 48 ≤ c.toNat && c.toNat ≤ 57

/-- Absolute value on `Rat` by case split (model of pandas `.abs()`),
kept executable for concrete evaluation. -/
def ratAbs (q : Rat) : Rat := if q < 0 then -q else q

/-- Parse an unsigned decimal literal (`"12"`, `"12.5"`, `".5"`, `"5."`).
Model of the fraction accepted by CPython `float` without exponent;
the exponent form never occurs in the statements concerned. -/
def parseUnsignedDec (cs : List Char) : Option Rat :=
  let ip := cs.takeWhile isDigitCh
  let rest := cs.dropWhile isDigitCh
  match rest with
  | [] => if ip.isEmpty then none else some (mkRat (digitsToNat ip) 1)
  | c :: fs =>
    if c = '.' && fs.all isDigitCh && !(ip.isEmpty && fs.isEmpty) then
      some (mkRat (digitsToNat ip * 10 ^ fs.length + digitsToNat fs) (10 ^ fs.length))
    else none

/-- Model of `pd.to_numeric(·, errors="coerce")` on one string cell:
leading/trailing whitespace is ignored, an optional sign then a decimal
literal is accepted, and anything else (commas, currency glyphs, text,
`"nan"`) coerces to missing (`none`, the embedding of `NaN`). -/
def pyToNumeric (s : String) : Option Rat :=
  match (pyStrip s).data with
  | [] => none
  | c :: rest =>
    if c = '-' then (parseUnsignedDec rest).map (fun q => -q)
    else if c = '+' then parseUnsignedDec rest
    else parseUnsignedDec (c :: rest)

/-! ## Dates (`_to_date`, parsers.py lines 37–45) -/

/-- Calendar date produced by the date parser. -/
structure Date where
  year : Nat
  month : Nat
  day : Nat
deriving DecidableEq, Repr

/-- Gregorian leap-year rule (CPython `datetime` validity). -/
def isLeap (y : Nat) : Bool := y % 4 == 0 && (y % 100 != 0 || y % 400 == 0)

/-- Number of days of a month (CPython `datetime` validity). -/
def daysInMonth (y m : Nat) : Nat :=
  if m = 2 then (if isLeap y then 29 else 28)
  else if m = 4 ∨ m = 6 ∨ m = 9 ∨ m = 11 then 30
  else 31

/-- Build a date, enforcing calendar validity as `strptime` does. -/
def mkDate (y m d : Nat) : Option Date :=
  if 1 ≤ m ∧ m ≤ 12 ∧ 1 ≤ d ∧ d ≤ daysInMonth y m then some ⟨y, m, d⟩ else none

/-- A 1-or-2-digit numeric field (`strptime` `%d`/`%m`). -/
def parseNum2 (s : String) : Option Nat :=
  if s.data.all isDigitCh ∧ (s.data.length = 1 ∨ s.data.length = 2) then
    some (digitsToNat s.data)
  else none

/-- A 4-digit year field (`strptime` `%Y`). -/
def parseYear4 (s : String) : Option Nat :=
  if s.data.all isDigitCh ∧ s.data.length = 4 then some (digitsToNat s.data) else none

/-- A 2-digit year field (`strptime` `%y`), with the POSIX pivot:
00–68 maps into the 2000s, 69–99 into the 1900s. -/
def parseYear2 (s : String) : Option Nat :=
  if s.data.all isDigitCh ∧ s.data.length = 2 then
    let n := digitsToNat s.data
    some (if n ≤ 68 then 2000 + n else 1900 + n)
  else none

/-- Month-abbreviation lookup (`strptime` `%b`, case-insensitive). -/
def monthAbbrev (s : String) : Option Nat :=
  match (["jan", "feb", "mar", "apr", "may", "jun", "jul", "aug", "sep",
          "oct", "nov", "dec"].findIdx? (fun m => m == pyLower s)) with
  | some i => some (i + 1)
  | none => none

/-- Day/month/4-digit-year with the given separator (`%d/%m/%Y`, `%d-%m-%Y`). -/
def parseDMY (sep : Char) (s : String) : Option Date :=
  match strSplit sep s with
  | [d, m, y] => do mkDate (← parseYear4 y) (← parseNum2 m) (← parseNum2 d)
  | _ => none

/-- ISO year-month-day (`%Y-%m-%d`). -/
def parseYMD (s : String) : Option Date :=
  match strSplit '-' s with
  | [y, m, d] => do mkDate (← parseYear4 y) (← parseNum2 m) (← parseNum2 d)
  | _ => none

/-- `day Mon year` (`%d %b %Y`). -/
def parseDMonY (s : String) : Option Date :=
  match strSplit ' ' s with
  | [d, mon, y] => do mkDate (← parseYear4 y) (← monthAbbrev mon) (← parseNum2 d)
  | _ => none

/-- Day/month/2-digit-year (`%d/%m/%y`). -/
def parseDMy2 (s : String) : Option Date :=
  match strSplit '/' s with
  | [d, m, y] => do mkDate (← parseYear2 y) (← parseNum2 m) (← parseNum2 d)
  | _ => none

/-- US month/day/4-digit-year (`%m/%d/%Y`), the last fixed format tried. -/
def parseMDY (s : String) : Option Date :=
  match strSplit '/' s with
  | [m, d, y] => do mkDate (← parseYear4 y) (← parseNum2 m) (← parseNum2 d)
  | _ => none

/-- The fixed formats of `_to_date`, in source order. -/
inductive Fmt where
  | dmySlash | dmyDash | ymdDash | dMonY | dmy2Slash | mdySlash
deriving DecidableEq, Repr

/-- Interpretation of each fixed format. -/
def parseFmt : Fmt → String → Option Date
  | .dmySlash => parseDMY '/'
  | .dmyDash => parseDMY '-'
  | .ymdDash => parseYMD
  | .dMonY => parseDMonY
  | .dmy2Slash => parseDMy2
  | .mdySlash => parseMDY

/-- The format list tried by `_to_date`, in source order. -/
def FMTS : List Fmt := [.dmySlash, .dmyDash, .ymdDash, .dMonY, .dmy2Slash, .mdySlash]

/-- Per-element free-form parse used by the `format="mixed"`,
`dayfirst=True` fallback of `_to_date`: day-before-month interpretations
are preferred, month-first is used only when day-first fails
(pandas/dateutil inference, modelled for the separator layouts above). -/
def fallbackOne (s : String) : Option Date :=
  (parseDMY '/' s).or ((parseDMY '-' s).or ((parseYMD s).or
    ((parseDMonY s).or ((parseMDY s).or (parseDMy2 s)))))

/-- Missing cells (`NaN`) never fail a fixed format: pandas maps them to
`NaT` without raising. -/
def fmtOkCell (fmt : Fmt) : Option String → Bool
  | none => true
  | some s => (parseFmt fmt s).isSome

/-- Python exceptions that the embedded code can raise. -/
inductive Err where
  | keyError (col : String)
  | excelDecodeError
  | unicodeDecodeError
  | dateParseError
deriving DecidableEq, Repr

/-- Embedding of `_to_date` (parsers.py 37–45): each fixed format is
tried against the whole batch and the first format under which every
non-missing element parses is committed to for the entire batch; when
no fixed format parses the whole batch, the per-element `format="mixed"`
fallback runs with `dayfirst=True`, raising (uncaught) when some
non-missing element cannot be parsed at all. -/
def toDate (batch : List (Option String)) : Except Err (List (Option Date)) :=
  match FMTS.find? (fun fmt => batch.all (fmtOkCell fmt)) with
  | some fmt => .ok (batch.map (fun c => c.bind (parseFmt fmt)))
  | none =>
    if batch.all (fun c => c.isNone || (c.bind fallbackOne).isSome) then
      .ok (batch.map (fun c => c.bind fallbackOne))
    else .error .dateParseError

/-! ## Raw frames and the canonical record (`_normalise`, parsers.py 48–56) -/

/-- A raw tabular input as produced by `pd.read_csv`/`pd.read_excel`:
header names plus rows of cells, a cell being `none` for a missing value
(`NaN`).  Cells are kept as the literal strings of the file; for the
numeric literals concerned, pandas dtype inference round-trips through
`astype(str)` to the same parsed value. -/
structure RawFrame where
  cols : List String
  rows : List (List (Option String))
deriving DecidableEq, Repr

/-- The case-normalised, trimmed header names
(`[c.lower().strip() for c in df_raw.columns]`). -/
def lcols (f : RawFrame) : List String :=
  f.cols.map (fun c => pyStrip (pyLower c))

/-- Index of a (normalised) column name, after the `df_raw.columns = cols`
renaming every recognizer performs. -/
def colIdx (f : RawFrame) (name : String) : Option Nat :=
  (lcols f).findIdx? (fun c => c == name)

/-- Column access `df_raw[name]`: raises `KeyError` when the column is
absent, otherwise yields the cell list. -/
def getCol (f : RawFrame) (name : String) : Except Err (List (Option String)) :=
  match colIdx f name with
  | some i => .ok (f.rows.map (fun r => (r.get? i).getD none))
  | none => .error (.keyError name)

/-- Column access with a scalar default,
`df_raw.get(name, default)` where the default broadcasts over all rows. -/
def getColD (f : RawFrame) (name : String) (dflt : List (Option String)) :
    List (Option String) :=
  match colIdx f name with
  | some i => f.rows.map (fun r => (r.get? i).getD none)
  | none => dflt

/-- Model of `astype(str)` on one cell: pandas renders `NaN` as the
string `"nan"`. -/
def cellStr : Option String → String
  | none => "nan"
  | some s => s

/-- An amount cell as `_normalise` may receive it: missing, an already
numeric value, or an unconverted string. -/
inductive Cell where
  | na
  | num (q : Rat)
  | str (s : String)
deriving DecidableEq, Repr

/-- Model of `pd.to_numeric(·, errors="coerce")` on a `Cell`. -/
def toNumericCell : Cell → Option Rat
  | .na => none
  | .num q => some q
  | .str s => pyToNumeric s

/-- A numeric option viewed again as a cell. -/
def optRatToCell : Option Rat → Cell
  | none => .na
  | some q => .num q

/-- A row of the partial frame every recognizer hands to `_normalise`:
`date`/`description`/`amount` columns. -/
structure NormRow where
  date : Option Date
  description : Option String
  amount : Cell
deriving DecidableEq, Repr

/-- The canonical Transaction record.  `description` stays an
`Option String` because `_normalise` never filters the description
column, so a missing description survives into the output. -/
structure Txn where
  date : Date
  description : Option String
  amount : Rat
  source_file : String
deriving DecidableEq, Repr

/-- Embedding of `_normalise` (parsers.py 48–56): keep the three columns,
attach `source_file`, drop rows whose `date` or `amount` cell is missing
(`dropna(subset=["date", "amount"])`), coerce `amount` to numeric
(failures become missing and fail the positivity filter), take the
absolute value and keep only strictly positive amounts. -/
def normalise (rows : List NormRow) (source : String) : List Txn :=
  rows.filterMap fun r =>
    match r.date with
    | none => none
    | some d =>
      match r.amount with
      | .na => none
      | a =>
        match toNumericCell a with
        | none => none
        | some q =>
          if 0 < ratAbs q then some ⟨d, r.description, ratAbs q, source⟩ else none

/-- Combine the three columns a recognizer builds into rows
(the implicit index alignment of pandas column assignment). -/
def zipRows : List (Option Date) → List (Option String) → List (Option Rat) →
    List NormRow
  | d :: ds, de :: des, a :: as_ =>
    ⟨d, de, optRatToCell a⟩ :: zipRows ds des as_
  | _, _, _ => []

/-! ## Per-format recognizers (parsers.py 63–245)

Each takes the raw frame and the source file name and yields
`.ok none` when it declines, `.ok (some txns)` when it claims, or
`.error e` when the Python code would raise. -/

/-- Amount conversion used by Monzo (parsers.py 72):
`pd.to_numeric(df_raw["amount"], errors="coerce")` — no separator or
currency stripping at all. -/
def monzoAmountCell (c : Option String) : Option Rat := c.bind pyToNumeric

/-- Amount conversion used by Starling, Revolut, Lloyds, HSBC and both
Amex recognizers: `pd.to_numeric(col.astype(str).str.replace(",", ""))` —
commas stripped, nothing else. -/
def commaAmountCell (c : Option String) : Option Rat :=
  pyToNumeric (removeChar ',' (cellStr c))

/-- Amount conversion of the generic parser (parsers.py 241–244):
commas and the `£` glyph stripped, then the absolute value. -/
def genericAmountCell (c : Option String) : Option Rat :=
  (pyToNumeric (removeChar '£' (removeChar ',' (cellStr c)))).map ratAbs

/-- Embedding of `_parse_monzo` (parsers.py 63–77). -/
def parse_monzo (f : RawFrame) (source : String) : Except Err (Option (List Txn)) :=
  if ("transaction id" ∈ lcols f) = false then .ok none
  else
    match getCol f "date" with
    | .error e => .error e
    | .ok dateC =>
      match toDate dateC with
      | .error e => .error e
      | .ok dates =>
        let descC := getColD f "name"
          (getColD f "description" (f.rows.map (fun _ => some "")))
        match getCol f "amount" with
        | .error e => .error e
        | .ok amtC =>
          let amounts := amtC.map monzoAmountCell
          let rows := zipRows dates descC amounts
          let kept := rows.filter fun r =>
            match r.amount with
            | .num q => decide (q < 0)
            | _ => false
          let kept := kept.map fun r =>
            { r with amount := match r.amount with
                               | .num q => .num (ratAbs q)
                               | a => a }
          .ok (some (normalise kept source))

/-- Embedding of `_parse_starling` (parsers.py 80–98). -/
def parse_starling (f : RawFrame) (source : String) : Except Err (Option (List Txn)) :=
  let cols := lcols f
  if ("counter party" ∈ cols) = false ∧ ("counterparty" ∈ cols) = false then .ok none
  else
    let cpCol := if "counter party" ∈ cols then "counter party" else "counterparty"
    let amtCands := cols.filter (fun c => strHas c "amount" && strHas c "gbp")
    let amtCands := if amtCands.isEmpty then cols.filter (fun c => strHas c "amount")
                    else amtCands
    let amtCol := amtCands.headD "amount"
    match getCol f "date" with
    | .error e => .error e
    | .ok dateC =>
      match toDate dateC with
      | .error e => .error e
      | .ok dates =>
        let ref := getColD f "reference" (f.rows.map (fun _ => some ""))
        let cp := getColD f cpCol []
        let descC := (cp.zip ref).map fun p =>
          some (cellStr p.1 ++ " " ++ cellStr p.2)
        match getCol f amtCol with
        | .error e => .error e
        | .ok amtC =>
          let amounts := amtC.map commaAmountCell
          let rows := zipRows dates descC amounts
          let kept := rows.filter fun r =>
            match r.amount with
            | .num q => decide (q < 0)
            | _ => false
          let kept := kept.map fun r =>
            { r with amount := match r.amount with
                               | .num q => .num (ratAbs q)
                               | a => a }
          .ok (some (normalise kept source))

/-- Embedding of `_parse_revolut` (parsers.py 101–114). -/
def parse_revolut (f : RawFrame) (source : String) : Except Err (Option (List Txn)) :=
  let cols := lcols f
  if ("completed date" ∈ cols) = false ∧ ("started date" ∈ cols) = false then .ok none
  else
    let dateCol := if "completed date" ∈ cols then "completed date" else "started date"
    match getCol f dateCol with
    | .error e => .error e
    | .ok dateC =>
      match toDate dateC with
      | .error e => .error e
      | .ok dates =>
        match getCol f "description" with
        | .error e => .error e
        | .ok descC =>
          match getCol f "amount" with
          | .error e => .error e
          | .ok amtC =>
            let amounts := amtC.map commaAmountCell
            let rows := zipRows dates descC amounts
            let kept := rows.filter fun r =>
              match r.amount with
              | .num q => decide (q < 0)
              | _ => false
            let kept := kept.map fun r =>
              { r with amount := match r.amount with
                                 | .num q => .num (ratAbs q)
                                 | a => a }
            .ok (some (normalise kept source))

/-- Embedding of `_parse_lloyds` (parsers.py 117–129). -/
def parse_lloyds (f : RawFrame) (source : String) : Except Err (Option (List Txn)) :=
  let cols := lcols f
  if ("transaction description" ∈ cols) = false ∨ ("debit amount" ∈ cols) = false then
    .ok none
  else
    match getCol f "transaction date" with
    | .error e => .error e
    | .ok dateC =>
      match toDate dateC with
      | .error e => .error e
      | .ok dates =>
        match getCol f "transaction description" with
        | .error e => .error e
        | .ok descC =>
          match getCol f "debit amount" with
          | .error e => .error e
          | .ok amtC =>
            let amounts := amtC.map commaAmountCell
            let rows := zipRows dates descC amounts
            let kept := rows.filter fun r =>
              match r.amount with
              | .num q => decide (0 < q)
              | _ => false
            .ok (some (normalise kept source))

/-- Embedding of `_parse_hsbc` (parsers.py 132–145). -/
def parse_hsbc (f : RawFrame) (source : String) : Except Err (Option (List Txn)) :=
  let cols := lcols f
  if ("debit" ∈ cols) = false ∨ ("credit" ∈ cols) = false then .ok none
  else
    let descCol := if "description" ∈ cols then "description" else (cols.get? 1).getD ""
    match getCol f "date" with
    | .error e => .error e
    | .ok dateC =>
      match toDate dateC with
      | .error e => .error e
      | .ok dates =>
        match getCol f descCol with
        | .error e => .error e
        | .ok descC =>
          match getCol f "debit" with
          | .error e => .error e
          | .ok amtC =>
            let amounts := amtC.map commaAmountCell
            let rows := zipRows dates descC amounts
            let kept := rows.filter fun r =>
              match r.amount with
              | .num q => decide (0 < q)
              | _ => false
            .ok (some (normalise kept source))

/-- Embedding of `_parse_amex_detailed` (parsers.py 148–167).  The debit
filter (`debit or credit` cell upper-cases to `"DBIT"`) runs before any
date-column access, and an empty debit set makes the recognizer decline
(`return None`). -/
def parse_amex_detailed (f : RawFrame) (source : String) :
    Except Err (Option (List Txn)) :=
  let cols := lcols f
  if ("billing amount" ∈ cols) = false ∨ ("merchant" ∈ cols) = false ∨
     ("debit or credit" ∈ cols) = false then .ok none
  else
    let dateCol := if "transaction date" ∈ cols then "transaction date"
                   else "posting date"
    let dcIdx := (colIdx f "debit or credit").getD 0
    let debitRows := f.rows.filter fun r =>
      match (r.get? dcIdx).getD none with
      | some s => pyUpper s == "DBIT"
      | none => false
    if debitRows.isEmpty then .ok none
    else
      let f2 : RawFrame := ⟨f.cols, debitRows⟩
      match getCol f2 dateCol with
      | .error e => .error e
      | .ok dateC =>
        match toDate dateC with
        | .error e => .error e
        | .ok dates =>
          match getCol f2 "merchant" with
          | .error e => .error e
          | .ok merchC =>
            let descC := merchC.map (fun c => some (pyStrip (cellStr c)))
            match getCol f2 "billing amount" with
            | .error e => .error e
            | .ok amtC =>
              let amounts := amtC.map commaAmountCell
              let rows := zipRows dates descC amounts
              let kept := rows.filter fun r =>
                match r.amount with
                | .num q => decide (0 < q)
                | _ => false
              .ok (some (normalise kept source))

/-- Embedding of `_parse_amex` (parsers.py 170–183), the simple
Amex/Barclays-style recognizer. -/
def parse_amex (f : RawFrame) (source : String) : Except Err (Option (List Txn)) :=
  let cols := lcols f
  if "amount" ∈ cols ∧ "description" ∈ cols ∧ cols.length ≤ 6 then
    match getCol f "date" with
    | .error e => .error e
    | .ok dateC =>
      match toDate dateC with
      | .error e => .error e
      | .ok dates =>
        match getCol f "description" with
        | .error e => .error e
        | .ok descC =>
          match getCol f "amount" with
          | .error e => .error e
          | .ok amtC =>
            let amounts := amtC.map commaAmountCell
            let rows := zipRows dates descC amounts
            let kept := rows.filter fun r =>
              match r.amount with
              | .num q => decide (0 < q)
              | _ => false
            .ok (some (normalise kept source))
  else .ok none

/-- Column chosen for the date by `_parse_generic` (parsers.py 195–207):
named candidates, then any name containing `"date"`, then the first
column. -/
def genericDateCol (cols : List String) : String :=
  match cols.find? (fun c =>
      c == "date" || c == "transaction date" || c == "trans date" ||
      c == "posted date" || c == "value date") with
  | some c => c
  | none =>
    match cols.find? (fun c => strHas c "date") with
    | some c => c
    | none => cols.headD ""

/-- Column chosen for the description by `_parse_generic`
(parsers.py 209–222): named candidates, then a name-fragment scan,
then the second (or first) column. -/
def genericDescCol (cols : List String) : String :=
  match cols.find? (fun c =>
      c == "description" || c == "transaction description" || c == "narrative" ||
      c == "details" || c == "memo" || c == "name" || c == "payee" ||
      c == "merchant") with
  | some c => c
  | none =>
    match cols.find? (fun c =>
        strHas c "desc" || strHas c "narr" || strHas c "detail" ||
        strHas c "memo") with
    | some c => c
    | none => if cols.length > 1 then (cols.get? 1).getD "" else cols.headD ""

/-- Column chosen for the amount by `_parse_generic` (parsers.py 224–236):
named candidates, then a name-fragment scan, then the last column. -/
def genericAmtCol (cols : List String) : String :=
  match cols.find? (fun c =>
      c == "amount" || c == "debit" || c == "debit amount" || c == "value" ||
      c == "transaction amount") with
  | some c => c
  | none =>
    match cols.find? (fun c =>
        strHas c "amount" || strHas c "debit" || strHas c "value") with
    | some c => c
    | none => (cols.getLast?).getD ""

/-- Embedding of `_parse_generic` (parsers.py 190–245): best-effort
column selection, description via `astype(str)`, amount stripped of
commas and `£` then taken in absolute value; no sign filtering.  The
chosen column names are elements of the header, so no `KeyError` can
occur; only the date fallback can raise. -/
def parse_generic (f : RawFrame) (source : String) : Except Err (List Txn) :=
  let cols := lcols f
  let dateC := getColD f (genericDateCol cols) []
  match toDate dateC with
  | .error e => .error e
  | .ok dates =>
    let descC := (getColD f (genericDescCol cols) []).map (fun c => some (cellStr c))
    let amtC := getColD f (genericAmtCol cols) []
    let amounts := amtC.map genericAmountCell
    .ok (normalise (zipRows dates descC amounts) source)

/-! ## Public API (parsers.py 252–315) -/

/-- The recognizer priority list `PARSERS` (parsers.py 252–260), in
source order. -/
def PARSERS : List (RawFrame → String → Except Err (Option (List Txn))) :=
  [parse_amex_detailed, parse_monzo, parse_starling, parse_revolut,
   parse_lloyds, parse_hsbc, parse_amex]

/-- The recognizer loop of `parse_statement` (parsers.py 299–305): run
the candidates in order, return the first claimed non-empty result, let
a raised exception propagate, and fall back to `_parse_generic`. -/
def runPARSERS : List (RawFrame → String → Except Err (Option (List Txn))) →
    RawFrame → String → Except Err (List Txn)
  | [], f, source => parse_generic f source
  | p :: rest, f, source =>
    match p f source with
    | .error e => .error e
    | .ok none => runPARSERS rest f source
    | .ok (some r) => if r.isEmpty then runPARSERS rest f source else .ok r

/-- Frame-level part of `parse_statement` (parsers.py 295–305): the
`df_raw.empty` early return, then the recognizer loop. -/
def parse_statement_frame (f : RawFrame) (source : String) : Except Err (List Txn) :=
  if f.rows.isEmpty || f.cols.isEmpty then .ok []
  else runPARSERS PARSERS f source

/-- One CSV cell as read by `pd.read_csv`: an empty field is a missing
value (`NaN`). -/
def toCsvCell (s : String) : Option String := if s = "" then none else some s

/-- Embedding of the CSV reading of `parse_statement` (parsers.py
286–293): strip the text, drop leading junk lines until one with at
least three comma-separated fields, then `pd.read_csv` with
`on_bad_lines="skip"` — the first kept line is the header, blank lines
are skipped, a row with more fields than the header is skipped, a
shorter row is padded with missing values. -/
def csvToFrame (text : String) : RawFrame :=
  let ls := strSplit '\n' (pyStrip text)
  let start := (ls.findIdx? (fun l => (strSplit ',' l).length ≥ 3)).getD 0
  match ls.drop start with
  | [] => ⟨[], []⟩
  | h :: rest =>
    let cols := strSplit ',' h
    let rows := rest.filterMap fun l =>
      if pyStrip l = "" then none
      else
        let cells := strSplit ',' l
        if cells.length > cols.length then none
        else some ((cells.map toCsvCell) ++
          (List.range (cols.length - cells.length)).map (fun _ => (none : Option String)))
    ⟨cols, rows⟩

/-- The decoded content of an uploaded file.  `text` is textual content
(the encoding chain of parsers.py 276–283 never hard-fails, so a text
file always decodes to its logical text).  `binary` is arbitrary binary
content: `asText` is its lossy text decoding, and `asExcel` is the
spreadsheet interpretation — `some f` when `pd.read_excel` can decode it
into the frame `f`, `none` when it raises on a malformed binary. -/
inductive FileContent where
  | text (s : String)
  | binary (asText : String) (asExcel : Option RawFrame)
deriving Repr

/-- The text decoding of a file (the encoding fallback chain ends in a
lossy decode, so it is total). -/
def decodeText : FileContent → String
  | .text s => s
  | .binary t _ => t

/-- Model of `pd.read_excel`: raises on content that is not a decodable
spreadsheet. -/
def readExcel : FileContent → Except Err RawFrame
  | .binary _ (some f) => .ok f
  | .binary _ none => .error .excelDecodeError
  | .text _ => .error .excelDecodeError

/-- Filename test of parsers.py 271: `filename.lower().endswith((".xlsx", ".xls"))`. -/
def isExcelName (name : String) : Bool :=
  endsWithStr (pyLower name) ".xlsx" || endsWithStr (pyLower name) ".xls"

/-- Embedding of `parse_statement` (parsers.py 263–305): spreadsheet or
CSV decoding selected by filename extension, then the frame-level
detection. -/
def parse_statement (c : FileContent) (filename : String) : Except Err (List Txn) :=
  if isExcelName filename then
    match readExcel c with
    | .error e => .error e
    | .ok f => parse_statement_frame f filename
  else
    parse_statement_frame (csvToFrame (decodeText c)) filename

/-- Embedding of `parse_multiple` (parsers.py 308–315): every file is
parsed in sequence and the results are concatenated; there is no
per-file exception handling, so the first raised error propagates out
of the whole batch. -/
def parse_multiple : List (FileContent × String) → Except Err (List Txn)
  | [] => .ok []
  | (c, n) :: rest =>
    match parse_statement c n with
    | .error e => .error e
    | .ok r =>
      match parse_multiple rest with
      | .error e => .error e
      | .ok rs => .ok (r ++ rs)

/-! ## Categoriser (`app/categoriser.py`) -/

/-- Embedding of `CategoryConfig` (categoriser.py 15–21): `rules` is an
insertion-ordered mapping (a Python 3.7+ `dict`), embedded as an ordered
association list because iteration order is load-bearing. -/
structure CategoryConfig where
  rules : List (String × List String)
  icons : List (String × String)
  uncategorised_label : String
  uncategorised_icon : String
  itemised_threshold : Rat
deriving DecidableEq, Repr

/-- The key normalisation used by `OverrideStore.get`/`set`/`remove`:
`description.lower().strip()`. -/
def normKey (description : String) : String := pyStrip (pyLower description)

/-- Lookup in the override mapping by raw key
(`dict.get`, first binding wins; a loaded JSON object has unique keys). -/
def ovGetK (data : List (String × String)) (k : String) : Option String :=
  (data.find? (fun p => p.1 == k)).map (fun p => p.2)

/-- Update of the override mapping by raw key (`dict.__setitem__`:
replace in place when the key exists, append otherwise). -/
def ovSetK (data : List (String × String)) (k v : String) : List (String × String) :=
  match data with
  | [] => [(k, v)]
  | p :: rest => if p.1 == k then (k, v) :: rest else p :: ovSetK rest k v

/-- Embedding of `OverrideStore.get` (categoriser.py 61–62). -/
def ovGet (data : List (String × String)) (description : String) : Option String :=
  ovGetK data (normKey description)

/-- Embedding of the mapping update of `OverrideStore.set`
(categoriser.py 64–66); the write-through persistence is `saveStore`. -/
def ovSet (data : List (String × String)) (description category : String) :
    List (String × String) :=
  ovSetK data (normKey description) category

/-- The states the backing file of the override store can be in, as
`_load` (categoriser.py 48–55) distinguishes them: absent; readable but
raising `OSError`; bytes that `Path.read_text` cannot decode to text
(raising `UnicodeDecodeError`); text that `json.loads` rejects (raising
`json.JSONDecodeError`); or a JSON object of string pairs. -/
inductive Backing where
  | missing
  | readError
  | undecodable
  | invalidJson
  | jsonDict (entries : List (String × String))
deriving DecidableEq, Repr

/-- Embedding of `OverrideStore._load` (categoriser.py 48–55): a missing
file yields the empty mapping; `OSError` and `json.JSONDecodeError` are
caught and also yield the empty mapping; a `UnicodeDecodeError` raised
by `read_text` is not in the `except (json.JSONDecodeError, OSError)`
clause and propagates. -/
def loadStore : Backing → Except Err (List (String × String))
  | .missing => .ok []
  | .readError => .ok []
  | .undecodable => .error .unicodeDecodeError
  | .invalidJson => .ok []
  | .jsonDict entries => .ok entries

/-- Embedding of `OverrideStore._save` (categoriser.py 57–59):
`json.dumps` of a string-to-string dictionary writes a JSON object
holding exactly its entries, which `json.loads` reads back verbatim. -/
def saveStore (data : List (String × String)) : Backing := .jsonDict data

/-- Embedding of `Categoriser.categorise`, keyword stage (categoriser.py
88–91): scan the categories in configured order and inside one category
the keywords in order, returning the first category one of whose
keywords is a substring of the lower-cased description. -/
def keywordMatch (rules : List (String × List String)) (descLower : String) :
    Option String :=
  match rules with
  | [] => none
  | (category, keywords) :: rest =>
    if keywords.any (fun kw => strHas descLower kw) then some category
    else keywordMatch rest descLower

/-- Embedding of `Categoriser.categorise` (categoriser.py 83–92):
override lookup first, then the ordered keyword scan, then the
configured uncategorised label. -/
def categorise (cfg : CategoryConfig) (overrides : List (String × String))
    (description : String) : String :=
  match ovGet overrides description with
  | some c => c
  | none =>
    match keywordMatch cfg.rules (pyLower description) with
    | some c => c
    | none => cfg.uncategorised_label

/-- Embedding of `Categoriser.recategorise` (categoriser.py 94–95):
delegate to `OverrideStore.set`, which updates the mapping and persists
it immediately. -/
def recategorise (data : List (String × String)) (description category : String) :
    List (String × String) × Backing :=
  let d2 := ovSet data description category
  (d2, saveStore d2)

/-- Categorisation by the keyword rules alone (the behaviour the spec
prescribes for an empty override store). -/
def keywordCategorise (cfg : CategoryConfig) (description : String) : String :=
  match keywordMatch cfg.rules (pyLower description) with
  | some c => c
  | none => cfg.uncategorised_label

/-- The detection policy in the spec's words: the first recognizer that
claims and yields a non-empty result wins, a claiming-but-empty result
is a miss, and the generic result is the final fallback. -/
def firstNonEmpty : List (Option (List Txn)) → List Txn → List Txn
  | [], dflt => dflt
  | none :: rest, dflt => firstNonEmpty rest dflt
  | some r :: rest, dflt => if r.isEmpty then firstNonEmpty rest dflt else r

/-- Run every recognizer of a candidate list on the same frame,
collecting each claim-or-decline outcome (propagating a raised
exception). -/
def runAll (ps : List (RawFrame → String → Except Err (Option (List Txn))))
    (f : RawFrame) (source : String) : Except Err (List (Option (List Txn))) :=
  match ps with
  | [] => .ok []
  | p :: rest =>
    match p f source with
    | .error e => .error e
    | .ok o =>
      match runAll rest f source with
      | .error e => .error e
      | .ok os => .ok (o :: os)

/-! ## Concrete inputs used by the claims -/

/-- The end-to-end scenario CSV of the spec: a header line, a debit row
and a refund row. -/
def tescoCsv : String :=
  "Date,Description,Amount\n28/01/2026,TESCO STORES,45.30\n27/01/2026,UBER *TRIP,-5.00"

/-- A CSV-derived frame whose headers make the simple Amex recognizer
claim (it has `description` and `amount` and at most six columns) while
lacking the `date` column that recognizer then reads. -/
def noDateFrame : RawFrame :=
  ⟨["Description", "Amount", "Ref"], [[some "a", some "1.00", some "b"]]⟩

/-- A one-row Monzo-style frame. -/
def monzoFrame : RawFrame :=
  ⟨["Transaction ID", "Date", "Name", "Amount"],
   [[some "t1", some "01/02/2026", some "COFFEE", some "-3.50"]]⟩

/-! ## Helper lemmas -/

/-- The values of `lowerPairs` are never keys of `lowerPairs`. -/
theorem lowerPairs_disjoint :
    ∀ p ∈ lowerPairs, ∀ q ∈ lowerPairs, (q.1 == p.2) = false := by decide

/-- Lower-casing a character is idempotent. -/
theorem lowerChar_idem (c : Char) : lowerChar (lowerChar c) = lowerChar c := by
  unfold lowerChar
  cases h : lowerPairs.find? (fun p => p.1 == c) with
  | none => simp [h]
  | some p =>
    have hp : p ∈ lowerPairs := List.mem_of_find?_eq_some h
    have : lowerPairs.find? (fun q => q.1 == p.2) = none := by
      rw [List.find?_eq_none]
      intro q hq
      simp [lowerPairs_disjoint p hp q hq]
    simp [this]

/-- `str.lower` is idempotent. -/
theorem pyLower_idem (s : String) : pyLower (pyLower s) = pyLower s := by
  simp only [pyLower, List.map_map]
  congr 1
  exact List.map_congr_left (fun c _ => lowerChar_idem c)

/-- Every transaction `_normalise` emits has a strictly positive amount. -/
theorem normalise_pos (rows : List NormRow) (source : String) :
    ∀ t ∈ normalise rows source, 0 < t.amount := by
  intro t ht
  simp only [normalise, List.mem_filterMap] at ht
  obtain ⟨r, -, h⟩ := ht
  split at h
  · exact absurd h (by simp)
  · split at h
    · exact absurd h (by simp)
    · split at h
      · exact absurd h (by simp)
      · split at h
        · obtain rfl := Option.some.injEq .. ▸ h
          simpa using ‹0 < ratAbs _›
        · exact absurd h (by simp)

/-- Every claimed result of the Monzo recognizer is a `normalise` image. -/
theorem parse_monzo_shape (f : RawFrame) (source : String) (r : List Txn)
    (h : parse_monzo f source = .ok (some r)) : ∃ rows, r = normalise rows source := by
  unfold parse_monzo at h
  iterate 4 (iterate 4 (all_goals try split at h)
             all_goals try simp_all)
  all_goals first
    | exact ⟨_, rfl⟩
    | exact ⟨_, h.symm⟩

/-- Every claimed result of the Starling recognizer is a `normalise` image. -/
theorem parse_starling_shape (f : RawFrame) (source : String) (r : List Txn)
    (h : parse_starling f source = .ok (some r)) : ∃ rows, r = normalise rows source := by
  unfold parse_starling at h
  iterate 4 (iterate 4 (all_goals try split at h)
             all_goals try simp_all)
  all_goals first
    | exact ⟨_, rfl⟩
    | exact ⟨_, h.symm⟩

/-- Every claimed result of the Revolut recognizer is a `normalise` image. -/
theorem parse_revolut_shape (f : RawFrame) (source : String) (r : List Txn)
    (h : parse_revolut f source = .ok (some r)) : ∃ rows, r = normalise rows source := by
  unfold parse_revolut at h
  iterate 4 (iterate 4 (all_goals try split at h)
             all_goals try simp_all)
  all_goals first
    | exact ⟨_, rfl⟩
    | exact ⟨_, h.symm⟩

/-- Every claimed result of the Lloyds recognizer is a `normalise` image. -/
theorem parse_lloyds_shape (f : RawFrame) (source : String) (r : List Txn)
    (h : parse_lloyds f source = .ok (some r)) : ∃ rows, r = normalise rows source := by
  unfold parse_lloyds at h
  iterate 4 (iterate 4 (all_goals try split at h)
             all_goals try simp_all)
  all_goals first
    | exact ⟨_, rfl⟩
    | exact ⟨_, h.symm⟩

/-- Every claimed result of the HSBC recognizer is a `normalise` image. -/
theorem parse_hsbc_shape (f : RawFrame) (source : String) (r : List Txn)
    (h : parse_hsbc f source = .ok (some r)) : ∃ rows, r = normalise rows source := by
  unfold parse_hsbc at h
  iterate 4 (iterate 4 (all_goals try split at h)
             all_goals try simp_all)
  all_goals first
    | exact ⟨_, rfl⟩
    | exact ⟨_, h.symm⟩

/-- Every claimed result of the detailed Amex recognizer is a `normalise` image. -/
theorem parse_amex_detailed_shape (f : RawFrame) (source : String) (r : List Txn)
    (h : parse_amex_detailed f source = .ok (some r)) : ∃ rows, r = normalise rows source := by
  unfold parse_amex_detailed at h
  iterate 4 (iterate 4 (all_goals try split at h)
             all_goals try simp_all)
  all_goals first
    | exact ⟨_, rfl⟩
    | exact ⟨_, h.symm⟩

/-- Every claimed result of the simple Amex recognizer is a `normalise` image. -/
theorem parse_amex_shape (f : RawFrame) (source : String) (r : List Txn)
    (h : parse_amex f source = .ok (some r)) : ∃ rows, r = normalise rows source := by
  unfold parse_amex at h
  iterate 4 (iterate 4 (all_goals try split at h)
             all_goals try simp_all)
  all_goals first
    | exact ⟨_, rfl⟩
    | exact ⟨_, h.symm⟩

/-- Every successful result of the generic parser is a `normalise` image. -/
theorem parse_generic_shape (f : RawFrame) (source : String) (out : List Txn)
    (h : parse_generic f source = .ok out) : ∃ rows, out = normalise rows source := by
  unfold parse_generic at h
  iterate 4 (iterate 4 (all_goals try split at h)
             all_goals try simp_all)
  all_goals first
    | exact ⟨_, rfl⟩
    | exact ⟨_, h.symm⟩

/-- Every claimed result of every member of `PARSERS` is a `normalise`
image. -/
theorem PARSERS_shape : ∀ p ∈ PARSERS, ∀ f source r,
    p f source = .ok (some r) → ∃ rows, r = normalise rows source := by
  intro p hp
  simp only [PARSERS, List.mem_cons, List.not_mem_nil, or_false] at hp
  rcases hp with rfl | rfl | rfl | rfl | rfl | rfl | rfl
  · exact parse_amex_detailed_shape
  · exact parse_monzo_shape
  · exact parse_starling_shape
  · exact parse_revolut_shape
  · exact parse_lloyds_shape
  · exact parse_hsbc_shape
  · exact parse_amex_shape

/-- Every successful result of the recognizer loop is a `normalise`
image. -/
theorem runPARSERS_shape (ps : List (RawFrame → String → Except Err (Option (List Txn))))
    (hps : ∀ p ∈ ps, ∀ f source r, p f source = .ok (some r) →
      ∃ rows, r = normalise rows source) :
    ∀ f source out, runPARSERS ps f source = .ok out →
      ∃ rows, out = normalise rows source := by
  induction ps with
  | nil => exact fun f source out h => parse_generic_shape f source out h
  | cons p rest ih =>
    intro f source out h
    unfold runPARSERS at h
    split at h
    · exact absurd h (by simp)
    · exact ih (fun q hq => hps q (List.mem_cons_of_mem p hq)) f source out h
    · split at h
      · exact ih (fun q hq => hps q (List.mem_cons_of_mem p hq)) f source out h
      · obtain rfl : _ = out := Except.ok.inj h
        exact hps p (List.mem_cons_self p rest) f source _ ‹_›

/-- Every transaction a successful `parse_statement_frame` emits has a
strictly positive amount. -/
theorem parse_statement_frame_pos (f : RawFrame) (source : String) (out : List Txn)
    (h : parse_statement_frame f source = .ok out) : ∀ t ∈ out, 0 < t.amount := by
  unfold parse_statement_frame at h
  split at h
  · obtain rfl : _ = out := Except.ok.inj h
    simp
  · obtain ⟨rows, rfl⟩ := runPARSERS_shape PARSERS PARSERS_shape f source out h
    exact normalise_pos rows source

/-- Looking up a key immediately after setting it yields the value just
set (Python `dict` update semantics). -/
theorem ovGetK_ovSetK (data : List (String × String)) (k v : String) :
    ovGetK (ovSetK data k v) k = some v := by
  induction data with
  | nil => simp [ovGetK, ovSetK]
  | cons p rest ih =>
    unfold ovSetK
    by_cases hp : p.1 == k
    · simp [hp, ovGetK]
    · simp only [hp]
      simpa [ovGetK, hp] using ih

/-- Removing a character twice is the same as removing it once. -/
theorem removeChar_idem (ch : Char) (s : String) :
    removeChar ch (removeChar ch s) = removeChar ch s := by
  simp [removeChar, List.filter_filter]

/-- Character removals commute. -/
theorem removeChar_comm (a b : Char) (s : String) :
    removeChar a (removeChar b s) = removeChar b (removeChar a s) := by
  simp only [removeChar, List.filter_filter]
  congr 1
  exact List.filter_congr (fun c _ => Bool.and_comm _ _)

/-- When no recognizer raises, the recognizer loop implements exactly
the first-claiming-non-empty-else-generic policy. -/
theorem runPARSERS_eq (ps : List (RawFrame → String → Except Err (Option (List Txn))))
    (f : RawFrame) (source : String) (os : List (Option (List Txn))) (gen : List Txn)
    (hall : runAll ps f source = .ok os) (hgen : parse_generic f source = .ok gen) :
    runPARSERS ps f source = .ok (firstNonEmpty os gen) := by
  induction ps generalizing os with
  | nil =>
    obtain rfl : [] = os := by simpa [runAll] using hall
    simpa [runPARSERS, firstNonEmpty] using hgen
  | cons p rest ih =>
    unfold runAll at hall
    split at hall
    · exact absurd hall (by simp)
    · rename_i o ho
      split at hall
      · exact absurd hall (by simp)
      · rename_i os2 hos2
        obtain rfl : o :: os2 = os := Except.ok.inj hall
        unfold runPARSERS
        rw [ho]
        cases o with
        | none => simpa [firstNonEmpty] using ih os2 hos2
        | some r =>
          by_cases hr : r.isEmpty
          · simpa [firstNonEmpty, hr] using ih os2 hos2
          · simp [firstNonEmpty, hr]

/-! ## The claims -/

/-- C1: for every input frame passed to the normalization step, every
row of the resulting canonical Transaction set has amount strictly
greater than 0: amounts are coerced to absolute value and rows with
missing, zero, or negative amount are dropped, so no Transaction
produced by any recognizer path ever carries a zero or negative
amount. -/
theorem c1_amount_always_positive :
    (∀ rows source, ∀ t ∈ normalise rows source, 0 < t.amount) ∧
    (∀ f source out, parse_statement_frame f source = Except.ok out →
      ∀ t ∈ out, 0 < t.amount) :=
  ⟨normalise_pos, parse_statement_frame_pos⟩

/-- Witness for C1 at a concrete normalization input. -/
theorem c1_amount_always_positive_witness :
    0 < (Txn.mk ⟨2026, 1, 1⟩ (some "A") 2 "f.csv").amount :=
  c1_amount_always_positive.1 [⟨some ⟨2026, 1, 1⟩, some "A", Cell.num 2⟩] "f.csv"
    (Txn.mk ⟨2026, 1, 1⟩ (some "A") 2 "f.csv") (by decide)

/-- C9: parsing a CSV file whose header is `Date,Description,Amount`
with exactly the rows `28/01/2026,TESCO STORES,45.30` and
`27/01/2026,UBER *TRIP,-5.00` produces exactly one Transaction, with
date 2026-01-28, description `TESCO STORES`, and amount 45.30 — the
negative-amount refund row is excluded. -/
theorem c9_end_to_end :
    parse_statement (.text tescoCsv) "statement.csv" =
      Except.ok [⟨⟨2026, 1, 28⟩, some "TESCO STORES", mkRat 453 10, "statement.csv"⟩] := by
  rfl

/-- C3 fails as stated: on this frame the simple Amex recognizer claims
the schema and then raises `KeyError("date")`, so detection neither
continues to a later candidate nor reaches the generic fallback — the
whole parse raises instead of returning a result. -/
theorem c3_counterexample :
    parse_statement_frame noDateFrame "x.csv" = Except.error (Err.keyError "date") := by
  rfl

/-- C3 amended: when every recognizer runs without raising (in
particular every claiming recognizer finds the columns it reads),
statement parsing returns the result of the first recognizer in
priority order that claims the schema and yields a non-empty result
set, a claiming-but-empty result being treated as a miss, ending at the
always-claiming generic fallback; but a claiming recognizer that lacks
a column it reads raises `KeyError` and aborts detection instead. -/
theorem c3_priority_amended (f : RawFrame) (source : String)
    (os : List (Option (List Txn))) (gen : List Txn)
    (hall : runAll PARSERS f source = Except.ok os)
    (hgen : parse_generic f source = Except.ok gen) :
    parse_statement_frame f source =
      Except.ok (if f.rows.isEmpty || f.cols.isEmpty then [] else firstNonEmpty os gen) := by
  unfold parse_statement_frame
  by_cases hc : (f.rows.isEmpty || f.cols.isEmpty) = true
  · simp only [hc, if_true]
  · simp only [hc, if_false]
    exact runPARSERS_eq PARSERS f source os gen hall hgen

/-- Witness for C3 (amended) on a concrete Monzo-style frame: the Monzo
recognizer is the first to claim with a non-empty result and wins. -/
theorem c3_priority_amended_witness :
    parse_statement_frame monzoFrame "m.csv" =
      Except.ok [⟨⟨2026, 2, 1⟩, some "COFFEE", mkRat 7 2, "m.csv"⟩] := by
  have h := c3_priority_amended monzoFrame "m.csv"
    [none, some [⟨⟨2026, 2, 1⟩, some "COFFEE", mkRat 7 2, "m.csv"⟩],
     none, none, none, none, none]
    [⟨⟨2026, 2, 1⟩, some "COFFEE", mkRat 7 2, "m.csv"⟩] (by rfl) (by rfl)
  exact h.trans (by rfl)

/-- C4 fails as stated: a row with a valid date, a positive amount and
an empty description is not dropped by `_normalise` (the `dropna` subset
is only `date` and `amount`), so a canonical Transaction with an empty
description is produced. -/
theorem c4_counterexample :
    normalise [⟨some ⟨2026, 1, 1⟩, some "", Cell.num 5⟩] "f.csv" =
      [⟨⟨2026, 1, 1⟩, some "", 5, "f.csv"⟩] ∧
    (Txn.mk ⟨2026, 1, 1⟩ (some "") 5 "f.csv").description = some "" :=
  ⟨rfl, rfl⟩

/-- C4 amended: normalization drops only rows with missing date or
missing/non-positive amount; the description cell — empty or even
missing — is passed through unchanged into the canonical Transaction,
so descriptions are not guaranteed non-empty. -/
theorem c4_description_passthrough (rows : List NormRow) (source : String) :
    ∀ t ∈ normalise rows source, t.description ∈ rows.map (fun r => r.description) := by
  intro t ht
  simp only [normalise, List.mem_filterMap] at ht
  obtain ⟨r, hr, h⟩ := ht
  have : t.description = r.description := by
    split at h
    · exact absurd h (by simp)
    · split at h
      · exact absurd h (by simp)
      · split at h
        · exact absurd h (by simp)
        · split at h
          · obtain rfl := Option.some.injEq .. ▸ h
            rfl
          · exact absurd h (by simp)
  rw [this]
  exact List.mem_map_of_mem _ hr

/-- Witness for C4 (amended) at a concrete input with an empty
description. -/
theorem c4_description_passthrough_witness :
    (Txn.mk ⟨2026, 1, 1⟩ (some "") 5 "f.csv").description ∈
      ([⟨some ⟨2026, 1, 1⟩, some "", Cell.num 5⟩] : List NormRow).map
        (fun r => r.description) :=
  c4_description_passthrough [⟨some ⟨2026, 1, 1⟩, some "", Cell.num 5⟩] "f.csv"
    (Txn.mk ⟨2026, 1, 1⟩ (some "") 5 "f.csv") (by decide)

/-- C5 fails as stated: a malformed spreadsheet binary in the batch
makes `parse_multiple` raise for the whole batch, although the sibling
CSV file parses fine on its own — per-file failures are not isolated. -/
theorem c5_counterexample :
    parse_multiple [(.binary "junk" none, "bad.xlsx"), (.text tescoCsv, "ok.csv")] =
      Except.error Err.excelDecodeError ∧
    parse_statement (.text tescoCsv) "ok.csv" =
      Except.ok [⟨⟨2026, 1, 28⟩, some "TESCO STORES", mkRat 453 10, "ok.csv"⟩] :=
  ⟨rfl, by rfl⟩

/-- C5 amended: files are parsed in sequence with no per-file exception
handling — the first file whose parse raises aborts the whole batch
with that error; only when every file parses are the per-file results
concatenated in order. -/
theorem c5_no_isolation :
    (∀ pre c n post e,
      (∀ p ∈ pre, ∃ r, parse_statement p.1 p.2 = Except.ok r) →
      parse_statement c n = Except.error e →
      parse_multiple (pre ++ (c, n) :: post) = Except.error e) ∧
    (∀ c n rest r rs, parse_statement c n = Except.ok r →
      parse_multiple rest = Except.ok rs →
      parse_multiple ((c, n) :: rest) = Except.ok (r ++ rs)) := by
  constructor
  · intro pre c n post e hpre hc
    induction pre with
    | nil => simp [parse_multiple, hc]
    | cons q qs ih =>
      obtain ⟨qc, qn⟩ := q
      obtain ⟨r, hr⟩ := hpre (qc, qn) (by simp)
      have h2 := ih (fun p hp => hpre p (List.mem_cons_of_mem _ hp))
      simp only [List.cons_append, parse_multiple, hr, List.append_eq]
      rw [h2]
  · intro c n rest r rs hc hrest
    simp [parse_multiple, hc, hrest]

/-- Witness for C5 (amended): the error of the first file propagates
over a batch that also holds a perfectly parseable file. -/
theorem c5_no_isolation_witness :
    parse_multiple [(.binary "x" none, "b.xlsx"), (.text tescoCsv, "c.csv")] =
      Except.error Err.excelDecodeError :=
  c5_no_isolation.1 [] (.binary "x" none) "b.xlsx"
    [(.text tescoCsv, "c.csv")] Err.excelDecodeError (by simp) (by rfl)

/-- C6 fails as stated: the Monzo amount path applies `pd.to_numeric`
with no separator or glyph stripping, so a thousands-separated amount
fails conversion (missing) while its comma-stripped form parses; the
comma-only paths (here the one shared by Starling/Revolut/Lloyds/HSBC/
Amex) likewise reject a `£`-prefixed amount that parses once the glyph
is removed. -/
theorem c6_counterexample :
    monzoAmountCell (some "1,234.50") = none ∧
    monzoAmountCell (some (removeChar ',' "1,234.50")) = some (mkRat 2469 2) ∧
    monzoAmountCell (some "1,234.50") ≠
      monzoAmountCell (some (removeChar ',' "1,234.50")) ∧
    commaAmountCell (some "£45.30") = none ∧
    commaAmountCell (some (removeChar '£' "£45.30")) = some (mkRat 453 10) :=
  ⟨rfl, by rfl, by decide, rfl, by rfl⟩

/-- C6 amended: the comma-stripping amount paths (Starling, Revolut,
Lloyds, HSBC, both Amex recognizers) are invariant under pre-stripping
commas, and the generic path is additionally invariant under
pre-stripping the `£` glyph; the Monzo path strips nothing, and any
value that still fails conversion is treated as missing. -/
theorem c6_stripping (s : String) :
    commaAmountCell (some (removeChar ',' s)) = commaAmountCell (some s) ∧
    genericAmountCell (some (removeChar '£' (removeChar ',' s))) =
      genericAmountCell (some s) := by
  constructor
  · simp [commaAmountCell, cellStr, removeChar_idem]
  · have key : removeChar '£' (removeChar ',' (removeChar '£' (removeChar ',' s))) =
        removeChar '£' (removeChar ',' s) := by
      calc removeChar '£' (removeChar ',' (removeChar '£' (removeChar ',' s)))
          = removeChar '£' (removeChar '£' (removeChar ',' (removeChar ',' s))) := by
            rw [removeChar_comm ',' '£' (removeChar ',' s)]
        _ = removeChar '£' (removeChar ',' (removeChar ',' s)) := by
            rw [removeChar_idem '£' (removeChar ',' (removeChar ',' s))]
        _ = removeChar '£' (removeChar ',' s) := by rw [removeChar_idem ',' s]
    simp only [genericAmountCell, cellStr]
    rw [key]

/-- C7 fails as stated: a batch whose other element parses only under
the last-resort `%m/%d/%Y` format makes `_to_date` commit to that
format for the whole batch, reading `01/02/2026` as 2 January 2026. -/
theorem c7_counterexample :
    toDate [some "01/02/2026", some "12/25/2026"] =
      Except.ok [some ⟨2026, 1, 2⟩, some ⟨2026, 12, 25⟩] ∧
    (⟨2026, 1, 2⟩ : Date) ≠ ⟨2026, 2, 1⟩ :=
  ⟨by rfl, by decide⟩

/-- C7 amended: the parser does commit to the first fixed format that
parses the entire batch, and both the first format (`%d/%m/%Y`) and the
per-element fallback read `01/02/2026` day-first as 1 February 2026;
but a batch that only parses fully under the last-resort `%m/%d/%Y`
format reads it month-first as 2 January 2026. -/
theorem c7_dayfirst :
    (∀ batch : List (Option String), batch.all (fmtOkCell .dmySlash) = true →
      toDate batch = Except.ok (batch.map (fun c => c.bind (parseFmt .dmySlash)))) ∧
    parseFmt .dmySlash "01/02/2026" = some ⟨2026, 2, 1⟩ ∧
    fallbackOne "01/02/2026" = some ⟨2026, 2, 1⟩ := by
  refine ⟨?_, by rfl, by rfl⟩
  intro batch hb
  have hfind : FMTS.find? (fun fmt => batch.all (fmtOkCell fmt)) = some .dmySlash := by
    unfold FMTS
    exact List.find?_cons_of_pos _ hb
  unfold toDate
  rw [hfind]

/-- Witness for C7 (amended): a batch containing only `01/02/2026`
commits to `%d/%m/%Y` and reads it as 1 February 2026. -/
theorem c7_dayfirst_witness :
    toDate [some "01/02/2026"] = Except.ok [some ⟨2026, 2, 1⟩] := by
  have h := c7_dayfirst.1 [some "01/02/2026"] (by decide)
  exact h.trans (by rfl)

/-- C8 fails as stated: a backing file whose bytes `Path.read_text`
cannot decode raises `UnicodeDecodeError`, which the
`except (json.JSONDecodeError, OSError)` clause does not catch, so
constructing the OverrideStore raises instead of degrading. -/
theorem c8_counterexample :
    loadStore Backing.undecodable = Except.error Err.unicodeDecodeError := rfl

/-- C8 amended: for a missing file, an `OSError` on read, and text
content that fails JSON deserialization, the load degrades to the empty
override mapping and categorisation proceeds exactly as with keyword
rules alone; but backing bytes that fail text decoding raise an
uncaught `UnicodeDecodeError`. -/
theorem c8_degrade :
    loadStore Backing.missing = Except.ok [] ∧
    loadStore Backing.readError = Except.ok [] ∧
    loadStore Backing.invalidJson = Except.ok [] ∧
    ∀ cfg desc, categorise cfg [] desc = keywordCategorise cfg desc :=
  ⟨rfl, rfl, rfl, fun _ _ => rfl⟩

/-- C2: after `recategorise(desc, X)` — that is, after the override
mapping is updated under the lowercase-trimmed key — `categorise(desc)`
returns `X` regardless of what the keyword rules would produce, and the
updated store serialises to a backing state that deserialises back to
the same mapping, so the property survives the persistence
round-trip. -/
theorem c2_override_precedence (cfg : CategoryConfig)
    (data : List (String × String)) (desc X : String) :
    categorise cfg (ovSet data desc X) desc = X ∧
    loadStore (saveStore (ovSet data desc X)) = Except.ok (ovSet data desc X) := by
  constructor
  · unfold categorise ovGet ovSet
    rw [ovGetK_ovSetK]
  · rfl

/-- C10: for a fixed configuration and override store, categorising the
lowercased form of a description gives the same category as
categorising the description itself — the override key is lowercased
and trimmed and keyword matching runs on the lowercased description,
and lowercasing is idempotent. -/
theorem c10_lower_invariant (cfg : CategoryConfig)
    (overrides : List (String × String)) (d : String) :
    categorise cfg overrides (pyLower d) = categorise cfg overrides d := by
  unfold categorise ovGet normKey
  rw [pyLower_idem]
